import Mathlib

/-
  Verification development for the FROST threshold-signature repository
  (bartke/frost, with the messages package of bartke/threshold-signatures-ed25519).

  Modelling conventions.
  * Scalars are the Ristretto255 scalar field, the integers modulo the prime
    order of the Ed25519 prime-order subgroup.
  * The Ristretto255 group is cyclic of prime order with generator B; a group
    element is represented by its discrete logarithm with respect to B.  Every
    group operation the source uses (Add, Negate, ScalarMult, ScalarBaseMult,
    identity, constant-time Equal) is the image of the corresponding scalar
    operation under this isomorphism, so the representation is faithful for
    all the algebra in the protocol.
  * SHA-512 based hash derivations (ComputeChallenge, the Schnorr challenge,
    the binding-factor digest, point encodings) are opaque functions of their
    byte inputs; they are passed as an explicit oracle parameter, so every
    theorem quantifies over all possible hash functions.
  * Randomness (nonces, polynomial coefficients) is passed as explicit
    arguments.
  * Go map values are modelled as association lists keyed by party ID; a Go
    runtime panic (nil map entry or nil payload pointer dereference) is the
    distinguished error value nilDereference.
-/

namespace Frost

deriving instance DecidableEq for Except

/-- Order of the Ristretto255 prime-order group:
2 to the power 252 plus 27742317777372353535851937790883648493. -/
def l : Nat := 7237005577332262213973186563042994240857116359379907606001950938285454250989

/-- Ristretto255 scalar field element. -/
abbrev Scalar := ZMod l

/-- Group element of the Ristretto255 prime-order group, represented by its
discrete logarithm with respect to the base point B. -/
structure Element where
  log : Scalar
deriving DecidableEq

/-- ristretto Element.Add. -/
def Element.add (P Q : Element) : Element := ⟨P.log + Q.log⟩

/-- ristretto Element.Negate. -/
def Element.negate (P : Element) : Element := ⟨-P.log⟩

/-- ristretto Element.ScalarMult: the element s times P. -/
def Element.scalarMult (s : Scalar) (P : Element) : Element := ⟨s * P.log⟩

/-- ristretto Element.ScalarBaseMult: the element s times B. -/
def Element.scalarBaseMult (s : Scalar) : Element := ⟨s⟩

/-- ristretto NewIdentityElement. -/
def Element.identity : Element := ⟨0⟩

/-- Modelled from the spec: the party package is not under src/.  A party ID is
a non-zero 16-bit integer with a canonical two-byte big-endian encoding
(party.ID.Bytes, party.IDByteSize = 2). -/
def idBytes (id : Nat) : List Nat := [id / 256 % 256, id % 256]

/-- Canonical injection of a party ID into the scalar field (party.ID.Scalar). -/
def idScalar (id : Nat) : Scalar := (id : Scalar)

/-- Opaque hash and encoding primitives used by the protocol.  The source
computes these with SHA-512 and the canonical 32-byte Ristretto encodings; the
embedding treats them as an oracle parameter, so theorems hold for every
instantiation. -/
structure HashModel where
  /-- sha512.Sum512 of a byte string. -/
  sha512 : List Nat → List Nat
  /-- Scalar.SetUniformBytes applied to sha512 of the buffer (binding factor). -/
  rho : List Nat → Scalar
  /-- eddsa.ComputeChallenge: H of R, the group key A and the message. -/
  challenge : Element → Element → List Nat → Scalar
  /-- Challenge hash of the Schnorr proof of knowledge: H of the domain
  separator, the prover ID, the context, the public element and the nonce
  commitment M. -/
  schnorrChallenge : Nat → List Nat → Element → Element → Scalar
  /-- Canonical 32-byte Ristretto encoding of a point (Element.Bytes). -/
  pointBytes : Element → List Nat

/-- Modelled from the spec: the party package is not under src/.
Lagrange computes the coefficient of party i over the set S evaluated at zero,
the product over j in S, j distinct from i, of j divided by j minus i, all in
the scalar field; it fails if i is not in S, if S contains duplicates, or if S
contains the zero ID. -/
def Lagrange (i : Nat) (S : List Nat) : Option Scalar :=
  if i ∈ S ∧ S.Nodup ∧ 0 ∉ S then
    some (S.foldl
      (fun acc j => if j = i then acc else acc * (idScalar j * (idScalar j - idScalar i)⁻¹)) 1)
  else none

/-- messages.MessageType. -/
inductive MessageType where
  | none
  | keygen1
  | keygen2
  | sign1
  | sign2
deriving DecidableEq

/-- messages.KeyGen1 payload: a Schnorr proof and a commitment polynomial in
the exponent. -/
structure KeyGen1Payload where
  /-- zk.Schnorr commitment M. -/
  proofM : Element
  /-- zk.Schnorr response s. -/
  proofS : Scalar
  /-- polynomial.Exponent, the list of coefficient points. -/
  Commitments : List Element
deriving DecidableEq

/-- messages.KeyGen2 payload: a secret share for the destination party. -/
structure KeyGen2Payload where
  Share : Scalar
deriving DecidableEq

/-- messages.Sign1 payload: the two nonce commitments. -/
structure Sign1Payload where
  Di : Element
  Ei : Element
deriving DecidableEq

/-- messages.Sign2 payload: the partial signature share. -/
structure Sign2Payload where
  Zi : Scalar
deriving DecidableEq

/-- messages.Message: a header plus one optional payload per variant, exactly
as the Go struct holds four possibly nil payload pointers. -/
structure Message where
  mtype : MessageType
  From : Nat
  To : Nat
  KeyGen1 : Option KeyGen1Payload
  KeyGen2 : Option KeyGen2Payload
  Sign1 : Option Sign1Payload
  Sign2 : Option Sign2Payload
deriving DecidableEq

/-- messages.NewKeyGen1. -/
def NewKeyGen1 (from_ : Nat) (proofM : Element) (proofS : Scalar)
    (commitments : List Element) : Message :=
  ⟨.keygen1, from_, 0, some ⟨proofM, proofS, commitments⟩, none, none, none⟩

/-- messages.NewKeyGen2. -/
def NewKeyGen2 (from_ dest : Nat) (share : Scalar) : Message :=
  ⟨.keygen2, from_, dest, none, some ⟨share⟩, none, none⟩

/-- messages.NewSign1. -/
def NewSign1 (from_ : Nat) (commitmentD commitmentE : Element) : Message :=
  ⟨.sign1, from_, 0, none, none, some ⟨commitmentD, commitmentE⟩, none⟩

/-- messages.NewSign2. -/
def NewSign2 (from_ : Nat) (signatureShare : Scalar) : Message :=
  ⟨.sign2, from_, 0, none, none, none, some ⟨signatureShare⟩⟩

/-- eddsa.Public: the public key and share bundle output by the DKG. -/
structure Public where
  PartyIDs : List Nat
  Threshold : Nat
  Shares : List (Nat × Element)
  GroupKey : Element
deriving DecidableEq

/-- eddsa.SecretShare. -/
structure SecretShare where
  ID : Nat
  Secret : Scalar
deriving DecidableEq

/-- eddsa.Signature. -/
structure Signature where
  R : Element
  S : Scalar
deriving DecidableEq

/-- Modelled from the spec: the eddsa package is not under src/.
PublicKey.Verify checks the cofactorless Schnorr equation: S times B equals
R plus c times A, where c is ComputeChallenge of R, A and the message. -/
def PublicKeyVerify (H : HashModel) (A : Element) (message : List Nat)
    (sig : Signature) : Bool :=
  decide (Element.scalarBaseMult sig.S
    = sig.R.add (Element.scalarMult (H.challenge sig.R A message) A))

/-- Association-list lookup modelling a read from a Go map keyed by party ID. -/
def mapLookup {α : Type} : List (Nat × α) → Nat → Option α
  | [], _ => none
  | p :: rest, id => if p.1 = id then some p.2 else mapLookup rest id

/-- In-place value update modelling a write through a pointer stored in a Go
map: the entry order is untouched, only matching values change. -/
def mapUpdate {α : Type} : List (Nat × α) → Nat → (α → α) → List (Nat × α)
  | [], _, _ => []
  | p :: rest, id, f => (if p.1 = id then (p.1, f p.2) else p) :: mapUpdate rest id f

/-- Go map assignment m[id] = v: replace the value if the key exists,
otherwise append the binding. -/
def mapInsert {α : Type} (m : List (Nat × α)) (id : Nat) (v : α) :
    List (Nat × α) :=
  if (mapLookup m id).isSome then mapUpdate m id (fun _ => v) else m ++ [(id, v)]

/-- The per-cosigner record stored by the signing state machine
(frost.signer, src/unnamed/part_006 lines 19 to 40). -/
structure Signer where
  Public : Element
  Di : Element
  Ei : Element
  Ri : Element
  Pi : Scalar
  Zi : Scalar
deriving DecidableEq

/-- frost.NewSigner: all points the identity, all scalars zero. -/
def NewSigner : Signer :=
  ⟨Element.identity, Element.identity, Element.identity, Element.identity, 0, 0⟩

/-- frost.SignerState (src/unnamed/part_006 lines 101 to 115). -/
structure SignerState where
  SelfID : Nat
  SignerIDs : List Nat
  Message : List Nat
  Signers : List (Nat × Signer)
  GroupKey : Element
  SecretKeyShare : Scalar
  E : Scalar
  D : Scalar
  C : Scalar
  R : Element
deriving DecidableEq

/-- Structured errors and runtime panics of the signing round machine. -/
inductive SignError where
  /-- SignInit: owner of SecretShare is not contained in partyIDs. -/
  | notContained
  /-- SignInit: partyIDs are not a subset of shares.PartyIDs. -/
  | notSubset
  /-- SignInit: id 0 is not valid. -/
  | invalidID
  /-- SignInit: party not found in shares. -/
  | missingShare
  /-- An error returned by Lagrange. -/
  | lagrangeFailure
  /-- SignRound1: commitment Ei or Di was the identity. -/
  | identityCommitment
  /-- SignRound2: party not found in shares. -/
  | unknownSigner
  /-- SignRound2: signature share is invalid. -/
  | invalidShare
  /-- SignRound2: full signature is invalid. -/
  | aggregateInvalid
  /-- A Go runtime panic: dereference of a nil map entry or nil payload. -/
  | nilDereference
deriving DecidableEq

/-- The party setup loop of SignInit (src/unnamed/part_006 lines 239 to 257):
for each signer ID, refuse ID zero, look up the public share, compute the
Lagrange coefficient and store the weighted share as the Public field of a
fresh signer record. -/
def setupSigners (shares : Public) (all : List Nat) :
    List Nat → Except SignError (List (Nat × Signer))
  | [] => .ok []
  | id :: rest =>
    if id = 0 then .error SignError.invalidID
    else
      match mapLookup shares.Shares id with
      | none => .error SignError.missingShare
      | some originalShare =>
        match Lagrange id all with
        | none => .error SignError.lagrangeFailure
        | some lam =>
          match setupSigners shares all rest with
          | .error e => .error e
          | .ok out => .ok ((id, { NewSigner with
              Public := Element.scalarMult lam originalShare }) :: out)

/-- frost.SignInit (src/unnamed/part_006 lines 221 to 278); the sampled
nonces d and e are explicit arguments.  Note the source checks only
membership and the subset relation: the threshold field of shares is never
read. -/
def SignInit (signerIDs : List Nat) (secret : SecretShare) (shares : Public)
    (message : List Nat) (d e : Scalar) :
    Except SignError (Message × SignerState) :=
  if secret.ID ∉ signerIDs then .error SignError.notContained
  else if ¬ (∀ id ∈ signerIDs, id ∈ shares.PartyIDs) then .error SignError.notSubset
  else
    match setupSigners shares signerIDs signerIDs with
    | .error e => .error e
    | .ok signers =>
      match Lagrange secret.ID signerIDs with
      | none => .error SignError.lagrangeFailure
      | some lam =>
        let sks := lam * secret.Secret
        match mapLookup signers secret.ID with
        | none => .error SignError.nilDereference
        | some _ =>
          let Di := Element.scalarBaseMult d
          let Ei := Element.scalarBaseMult e
          let signers := mapUpdate signers secret.ID
            (fun s => { s with Di := Di, Ei := Ei })
          let st : SignerState :=
            { SelfID := secret.ID
              SignerIDs := signerIDs
              Message := message
              Signers := signers
              GroupKey := shares.GroupKey
              SecretKeyShare := sks
              E := e
              D := d
              C := 0
              R := Element.identity }
          .ok (NewSign1 secret.ID Di Ei, st)

/-- One iteration of the Sign1 processing loop of SignRound1
(src/unnamed/part_006 lines 283 to 295).  Messages from self are skipped;
identity commitments are rejected; a sender absent from the Signers map makes
the Go code dereference a nil pointer, which is a runtime panic. -/
def processSign1 (st : SignerState) (msg : Message) : Except SignError SignerState :=
  if msg.From = st.SelfID then .ok st
  else
    match msg.Sign1 with
    | none => .error SignError.nilDereference
    | some s1 =>
      if s1.Di = Element.identity ∨ s1.Ei = Element.identity then
        .error SignError.identityCommitment
      else
        match mapLookup st.Signers msg.From with
        | none => .error SignError.nilDereference
        | some _ =>
          let f := fun s => { s with Di := s1.Di, Ei := s1.Ei }
          .ok { st with Signers := mapUpdate st.Signers msg.From f }

/-- The Sign1 processing loop over the whole input batch. -/
def processSign1Batch (st : SignerState) : List Message → Except SignError SignerState
  | [] => .ok st
  | m :: rest =>
    match processSign1 st m with
    | .error e => .error e
    | .ok st2 => processSign1Batch st2 rest

/-- ASCII bytes of the domain separator FROST-SHA512. -/
def hashDomainSeparation : List Nat := [70, 82, 79, 83, 84, 45, 83, 72, 65, 53, 49, 50]

/-- Go copy of src into dst starting at offset off: overwrites at most the
available space, never changes the length of dst. -/
def writeAt (off : Nat) (src dst : List Nat) : List Nat :=
  dst.take off ++ src.take (dst.length - off) ++ dst.drop (off + src.length)

/-- The first loop of computeRhos (src/unnamed/part_006 lines 421 to 426):
concatenation of ID, D and E encodings for every signer in list order. -/
def collectB (H : HashModel) (signers : List (Nat × Signer)) :
    List Nat → List Nat → Except SignError (List Nat)
  | [], acc => .ok acc
  | id :: rest, acc =>
    match mapLookup signers id with
    | none => .error SignError.nilDereference
    | some p =>
      collectB H signers rest (acc ++ idBytes id ++ H.pointBytes p.Di ++ H.pointBytes p.Ei)

/-- The second loop of computeRhos (src/unnamed/part_006 lines 428 to 435):
per signer, overwrite the two ID bytes at the fixed offset, hash the buffer
and store the binding factor.  The mutated buffer is threaded through the
iterations exactly as in the source. -/
def rhoLoop (H : HashModel) :
    List Nat → List Nat → List (Nat × Signer) →
    Except SignError (List Nat × List (Nat × Signer))
  | [], buf, sg => .ok (buf, sg)
  | id :: rest, buf, sg =>
    let buf := writeAt hashDomainSeparation.length (idBytes id) buf
    match mapLookup sg id with
    | none => .error SignError.nilDereference
    | some _ =>
      rhoLoop H rest buf (mapUpdate sg id (fun p => { p with Pi := H.rho buf }))

/-- frost.computeRhos (src/unnamed/part_006 lines 395 to 436). -/
def computeRhos (H : HashModel) (st : SignerState) :
    Except SignError SignerState :=
  let messageHash := H.sha512 st.Message
  match collectB H st.Signers st.SignerIDs [] with
  | .error e => .error e
  | .ok bbuf =>
    let buffer := hashDomainSeparation ++ idBytes st.SelfID ++ messageHash ++ bbuf
    match rhoLoop H st.SignerIDs buffer st.Signers with
    | .error e => .error e
    | .ok out => .ok { st with Signers := out.2 }

/-- The R accumulation loop of SignRound1 (src/unnamed/part_006 lines 300 to
311): per signer, Ri is Di plus Pi times Ei, written back in place, and R is
the running sum. -/
def computeRi :
    List Nat → List (Nat × Signer) → Element →
    Except SignError (List (Nat × Signer) × Element)
  | [], sg, R => .ok (sg, R)
  | id :: rest, sg, R =>
    match mapLookup sg id with
    | none => .error SignError.nilDereference
    | some p =>
      let Ri := (Element.scalarMult p.Pi p.Ei).add p.Di
      computeRi rest (mapUpdate sg id (fun q => { q with Ri := Ri })) (R.add Ri)

/-- The tail of SignRound1 after the message processing loop: binding
factors, the commitment shares and their sum, the challenge and the own
partial signature (src/unnamed/part_006 lines 297 to 333). -/
def signRound1Finish (H : HashModel) (st : SignerState) :
    Except SignError (Message × SignerState) :=
  match computeRhos H st with
  | .error e => .error e
  | .ok st =>
    match computeRi st.SignerIDs st.Signers Element.identity with
    | .error e => .error e
    | .ok out =>
      let st := { st with Signers := out.1, R := out.2 }
      let st := { st with C := H.challenge st.R st.GroupKey st.Message }
      match mapLookup st.Signers st.SelfID with
      | none => .error SignError.nilDereference
      | some selfParty =>
        let z := st.SecretKeyShare * st.C
        let z := st.E * selfParty.Pi + z
        let z := z + st.D
        let f := fun p => { p with Zi := z }
        let st := { st with Signers := mapUpdate st.Signers st.SelfID f }
        .ok (NewSign2 st.SelfID z, st)

/-- frost.SignRound1 (src/unnamed/part_006 lines 281 to 334). -/
def SignRound1 (H : HashModel) (st : SignerState) (inputMsgs : List Message) :
    Except SignError (Message × SignerState) :=
  match processSign1Batch st inputMsgs with
  | .error e => .error e
  | .ok st => signRound1Finish H st

/-- One iteration of the Sign2 processing loop of SignRound2
(src/unnamed/part_006 lines 339 to 365): messages from self are skipped, an
unknown sender is a structured error here, and the share is accepted exactly
when z times B plus c times the negated stored public share equals the stored
Ri. -/
def processSign2 (st : SignerState) (msg : Message) : Except SignError SignerState :=
  if msg.From = st.SelfID then .ok st
  else
    match mapLookup st.Signers msg.From with
    | none => .error SignError.unknownSigner
    | some p =>
      match msg.Sign2 with
      | none => .error SignError.nilDereference
      | some s2 =>
        let RPrime := (Element.scalarBaseMult s2.Zi).add
          (Element.scalarMult st.C p.Public.negate)
        if RPrime = p.Ri then
          let f := fun q => { q with Zi := s2.Zi }
          .ok { st with Signers := mapUpdate st.Signers msg.From f }
        else .error SignError.invalidShare

/-- The Sign2 processing loop over the whole input batch. -/
def processSign2Batch (st : SignerState) : List Message → Except SignError SignerState
  | [] => .ok st
  | m :: rest =>
    match processSign2 st m with
    | .error e => .error e
    | .ok st2 => processSign2Batch st2 rest

/-- The aggregate S of SignRound2: the sum of the Zi values over every signer
record, the own share included. -/
def sumZi (sg : List (Nat × Signer)) : Scalar :=
  sg.foldl (fun acc p => acc + p.2.Zi) 0

/-- frost.SignRound2 (src/unnamed/part_006 lines 337 to 386). -/
def SignRound2 (H : HashModel) (st : SignerState) (inputMsgs : List Message) :
    Except SignError (Signature × SignerState) :=
  match processSign2Batch st inputMsgs with
  | .error e => .error e
  | .ok st =>
    let sig : Signature := { R := st.R, S := sumZi st.Signers }
    if PublicKeyVerify H st.GroupKey st.Message sig then .ok (sig, st)
    else .error SignError.aggregateInvalid

/-!  The distributed key generation round machine, embedded from
src/unnamed/part_004 lines 1 to 269 together with the polynomial package
(src/polynomial/polynomial.go).  -/

/-- A polynomial over the scalar field: the list of coefficients, constant
term first (polynomial.Polynomial). -/
abbrev KPolynomial := List Scalar

/-- polynomial.NewPolynomial: constant term set to the secret, the remaining
degree coefficients drawn at random; the sampled values are passed in as the
function rand. -/
def NewPolynomial (degree : Nat) (constant : Scalar) (rand : Nat → Scalar) :
    KPolynomial :=
  constant :: (List.range degree).map (fun i => rand i)

/-- polynomial.Polynomial.Evaluate by the Horner rule; evaluation at zero is
a panic in the source (attempt to leak secret), modelled as none. -/
def KPolynomial.Evaluate (p : KPolynomial) (index : Scalar) : Option Scalar :=
  if index = 0 then none
  else some (p.foldr (fun a acc => acc * index + a) 0)

/-- The polynomial in the exponent (polynomial.Exponent): the coefficient
points A with A at k equal to a at k times B.  The polynomial package of the
frost repository is not under src/; evaluation and addition are modelled from
the spec, which defines evaluation at x as the sum of A at k times x to the k
and Add as pointwise addition of same-degree instances. -/
abbrev Exponent := List Element

/-- polynomial.NewPolynomialExponent: the image of the polynomial under
scalar-base multiplication. -/
def NewPolynomialExponent (p : KPolynomial) : Exponent :=
  p.map Element.scalarBaseMult

/-- Modelled from the spec: polynomial.Exponent.Evaluate at a scalar x
returns the sum over k of A at k times x to the k (Horner form). -/
def Exponent.Evaluate (p : Exponent) (x : Scalar) : Element :=
  p.foldr (fun A acc => (Element.scalarMult x acc).add A) Element.identity

/-- Modelled from the spec: polynomial.Exponent.Add is coefficient-wise point
addition of two same-degree instances. -/
def Exponent.AddExp (p q : Exponent) : Exponent := List.zipWith Element.add p q

/-- polynomial.Exponent.Constant: the coefficient point of index zero. -/
def Exponent.Constant (p : Exponent) : Element := p.headD Element.identity

/-- Modelled from the spec: the zk package implementation is not under src/
(only its test is).  A Schnorr proof of knowledge is the pair of the nonce
commitment M and the response s. -/
structure Schnorr where
  M : Element
  s : Scalar
deriving DecidableEq

/-- Modelled from the spec: zk.NewSchnorrProof with nonce k computes M as k
times B, the challenge e by hashing the prover ID, the context, the public
element and M, and the response s as k plus e times the secret. -/
def NewSchnorrProof (H : HashModel) (id : Nat) (publicPoint : Element)
    (ctx : List Nat) (k secret : Scalar) : Schnorr :=
  let M := Element.scalarBaseMult k
  let e := H.schnorrChallenge id ctx publicPoint M
  ⟨M, k + e * secret⟩

/-- Modelled from the spec: zk.Schnorr.Verify recomputes the challenge e and
accepts exactly when s times B minus e times the public element equals M. -/
def SchnorrVerify (H : HashModel) (id : Nat) (publicPoint : Element)
    (ctx : List Nat) (proof : Schnorr) : Bool :=
  let e := H.schnorrChallenge id ctx publicPoint proof.M
  decide ((Element.scalarBaseMult proof.s).add
    (Element.scalarMult e publicPoint.negate) = proof.M)

/-- The 32 zero context bytes used for the proof of knowledge in the DKG. -/
def zeroCtx : List Nat := List.replicate 32 0

/-- messages.State, the per-party DKG state (src/unnamed/part_004 lines 17
to 25). -/
structure State where
  SelfID : Nat
  PartyIDs : List Nat
  Threshold : Nat
  Polynomial : KPolynomial
  Secret : Scalar
  Commitments : List (Nat × Exponent)
  CommitmentsSum : Exponent
deriving DecidableEq

/-- Structured errors and runtime panics of the keygen round machine. -/
inductive KeygenError where
  /-- invalid message type for the round. -/
  | invalidType
  /-- ZK Schnorr verification failed. -/
  | pokFailure
  /-- missing commitment for a party at Round2. -/
  | missingCommitment
  /-- VSS validation failed. -/
  | vssFailure
  /-- The polynomial evaluation panic on index zero (attempt to leak secret). -/
  | panicEvalZero
  /-- A Go runtime panic from a nil pointer dereference. -/
  | nilDereference
deriving DecidableEq

/-- messages.Round0 (src/unnamed/part_004 lines 156 to 182); the sampled
secret, the random polynomial coefficients and the proof nonce are explicit
arguments.  The source performs no validation of selfID, n or t. -/
def Round0 (H : HashModel) (selfID n t : Nat) (secret : Scalar)
    (rand : Nat → Scalar) (k : Scalar) : Except KeygenError (Message × State) := do
  let partyIDs := (List.range n).map (fun i => i + 1)
  let poly := NewPolynomial t secret rand
  let comm := NewPolynomialExponent poly
  let publicPoint := Exponent.Constant comm
  let proof := NewSchnorrProof H selfID publicPoint zeroCtx k secret
  match KPolynomial.Evaluate poly (idScalar selfID) with
  | none => .error KeygenError.panicEvalZero
  | some selfShare =>
    let st : State :=
      { SelfID := selfID
        PartyIDs := partyIDs
        Threshold := t
        Polynomial := poly
        Secret := selfShare
        Commitments := []
        CommitmentsSum := comm }
    pure (NewKeyGen1 selfID proof.M proof.s comm, st)

/-- One iteration of the KeyGen1 processing loop of Round1
(src/unnamed/part_004 lines 187 to 206): messages from self are skipped, a
wrong type or a failed proof of knowledge is fatal, and an accepted
commitment is stored and accumulated into the commitment sum.  No duplicate
check is performed. -/
def processKG1 (H : HashModel) (st : State) (msg : Message) :
    Except KeygenError State :=
  if msg.From = st.SelfID then .ok st
  else if msg.mtype ≠ MessageType.keygen1 then .error KeygenError.invalidType
  else
    match msg.KeyGen1 with
    | none => .error KeygenError.nilDereference
    | some kg1 =>
      let publicPoint := Exponent.Constant kg1.Commitments
      if SchnorrVerify H msg.From publicPoint zeroCtx ⟨kg1.proofM, kg1.proofS⟩ then
        .ok { st with
          Commitments := mapInsert st.Commitments msg.From kg1.Commitments
          CommitmentsSum := Exponent.AddExp st.CommitmentsSum kg1.Commitments }
      else .error KeygenError.pokFailure

/-- The KeyGen1 processing loop over the whole input batch. -/
def processKG1Batch (H : HashModel) (st : State) :
    List Message → Except KeygenError State
  | [] => .ok st
  | m :: rest =>
    match processKG1 H st m with
    | .error e => .error e
    | .ok st2 => processKG1Batch H st2 rest

/-- The KeyGen2 generation loop of Round1 (src/unnamed/part_004 lines 209 to
218): one point-to-point share per party other than self. -/
def genKG2 (selfID : Nat) (poly : KPolynomial) :
    List Nat → Except KeygenError (List Message)
  | [] => .ok []
  | id :: rest =>
    if id = selfID then genKG2 selfID poly rest
    else
      match KPolynomial.Evaluate poly (idScalar id) with
      | none => .error KeygenError.panicEvalZero
      | some share =>
        match genKG2 selfID poly rest with
        | .error e => .error e
        | .ok out => .ok (NewKeyGen2 selfID id share :: out)

/-- messages.Round1 (src/unnamed/part_004 lines 185 to 223). -/
def Round1 (H : HashModel) (st : State) (inputMsgs : List Message) :
    Except KeygenError (List Message × State) := do
  let st ← processKG1Batch H st inputMsgs
  let msgsOut ← genKG2 st.SelfID st.Polynomial st.PartyIDs
  match KPolynomial.Evaluate st.Polynomial (idScalar st.SelfID) with
  | none => .error KeygenError.panicEvalZero
  | some selfShare => pure (msgsOut, { st with Secret := selfShare })

/-- One iteration of the KeyGen2 processing loop of Round2
(src/unnamed/part_004 lines 228 to 253): a wrong type is fatal, messages from
self are skipped, a missing commitment is fatal, and a share sigma is
accepted and added into the secret accumulator exactly when sigma times B
equals the stored commitment polynomial of the sender evaluated at the own
ID. -/
def processKG2 (st : State) (msg : Message) : Except KeygenError State :=
  if msg.mtype ≠ MessageType.keygen2 then .error KeygenError.invalidType
  else if msg.From = st.SelfID then .ok st
  else
    match msg.KeyGen2 with
    | none => .error KeygenError.nilDereference
    | some kg2 =>
      let computedShareExp := Element.scalarBaseMult kg2.Share
      match mapLookup st.Commitments msg.From with
      | none => .error KeygenError.missingCommitment
      | some F =>
        let shareExp := Exponent.Evaluate F (idScalar st.SelfID)
        if computedShareExp = shareExp then
          .ok { st with Secret := st.Secret + kg2.Share }
        else .error KeygenError.vssFailure

/-- The KeyGen2 processing loop over the whole input batch. -/
def processKG2Batch (st : State) : List Message → Except KeygenError State
  | [] => .ok st
  | m :: rest =>
    match processKG2 st m with
    | .error e => .error e
    | .ok st2 => processKG2Batch st2 rest

/-- The output bundle built at the end of Round2 (src/unnamed/part_004 lines
255 to 265): one public share per party, evaluated from the commitment sum,
with the group key its constant term. -/
def buildPublic (st : State) : Public :=
  { PartyIDs := st.PartyIDs
    Threshold := st.Threshold
    Shares := st.PartyIDs.map
      (fun id => (id, Exponent.Evaluate st.CommitmentsSum (idScalar id)))
    GroupKey := Exponent.Constant st.CommitmentsSum }

/-- messages.Round2 (src/unnamed/part_004 lines 226 to 269): process the
shares, then publish the bundle of public shares and the own secret share. -/
def Round2 (st : State) (inputMsgs : List Message) :
    Except KeygenError (Public × SecretShare) := do
  let st ← processKG2Batch st inputMsgs
  pure (buildPublic st, ⟨st.SelfID, st.Secret⟩)

/-!  The JSON persistence of the signing state (src/messages/sign.go lines
170 to 329).  The base64 and JSON framing is lossless and omitted; what
decides the round trip is the per-field scalar codec: MarshalJSON writes the
canonical 32-byte little-endian encoding Bytes(), and UnmarshalJSON reads the
fields SecretKeyShare, E, D and C back with SetBytesWithClamping
(src/messages/sign.go lines 264, 273, 282 and 291), and likewise the field
Secret of the keygen State in src/unnamed/part_004 line 384.  -/

/-- The canonical 32-byte little-endian encoding of a scalar
(ristretto.Scalar.Bytes). -/
def scalarBytes (s : Scalar) : List Nat :=
  (List.range 32).map (fun i => s.val / 256 ^ i % 256)

/-- The little-endian value of a byte string. -/
def fromLEBytes (b : List Nat) : Nat :=
  b.foldr (fun byte acc => byte + 256 * acc) 0

/-- The Ed25519 clamp of a 32-byte string (RFC 8032): clear the low three
bits of byte 0, clear the top bit and set bit 6 of byte 31. -/
def clampBytes (b : List Nat) : List Nat :=
  (b.set 0 (b.headD 0 - b.headD 0 % 8)).set 31 (b.getD 31 0 % 128 % 64 + 64)

/-- edwards25519.Scalar.SetBytesWithClamping as used by the ristretto wrapper
of this repository: clamp the 32 input bytes, then reduce the little-endian
value modulo the group order. -/
def SetBytesWithClamping (b : List Nat) : Scalar := (fromLEBytes (clampBytes b) : Scalar)

/-- The round trip applied by MarshalJSON followed by UnmarshalJSON to each
of the scalar state fields SecretKeyShare, E, D and C of the SignerState (and
the field Secret of the keygen State): write Bytes(), read back with
SetBytesWithClamping. -/
def stateScalarRoundTrip (s : Scalar) : Scalar :=
  SetBytesWithClamping (scalarBytes s)

/-!  Concrete instantiations used to evaluate the round functions on explicit
inputs.  H0 is one instantiation of the opaque hash oracle; every universally
quantified theorem holds for all instantiations, H0 only serves to run the
code. -/

/-- A concrete instantiation of the hash oracle. -/
def H0 : HashModel :=
  ⟨fun _ => [], fun _ => 0, fun _ _ _ => 0, fun _ _ _ _ => 0, fun _ => []⟩

/-- The signing state used to evaluate the partial signature check: self is
party 1, the cosigner 2 has stored public share with logarithm 3 and stored
commitment share with logarithm 4, and the stored challenge is 2. -/
def st5 : SignerState :=
  ⟨1, [1, 2], [], [(1, NewSigner), (2, { NewSigner with Public := ⟨3⟩, Ri := ⟨4⟩ })],
    ⟨9⟩, 0, 0, 0, 2, ⟨0⟩⟩

/-- The DKG state used to evaluate the VSS check: self is party 1 and the
stored commitment of party 2 is the constant polynomial with point 3 in the
exponent. -/
def st6 : State := ⟨1, [1, 2], 1, [4], 0, [(2, [⟨3⟩])], [⟨7⟩]⟩

/-- The signing state used to evaluate a successful SignRound2 run: a single
signer holding partial signature 5 whose sum matches the stored aggregate
under the hash instantiation H0. -/
def st2ok : SignerState :=
  ⟨1, [1], [], [(1, { NewSigner with Zi := 5 })], ⟨7⟩, 0, 1, 1, 0, ⟨5⟩⟩

/-- Two signing states agreeing on everything the binding factors read but
held by different parties: state stA belongs to party 1 and state stB to
party 2. -/
def stA : SignerState :=
  ⟨1, [1, 2], [7], [(1, NewSigner), (2, NewSigner)], ⟨5⟩, 0, 1, 1, 0, ⟨0⟩⟩

/-- The counterpart of stA held by party 2. -/
def stB : SignerState :=
  ⟨2, [1, 2], [7], [(1, NewSigner), (2, NewSigner)], ⟨5⟩, 0, 1, 1, 0, ⟨0⟩⟩

/-- The DKG state of party 1 used to evaluate Round1 on a duplicate batch:
party set 1 and 2, constant polynomial 4, empty commitment store (as it is
after deserialization of the Round0 state), own commitment sum with point 4. -/
def st0kg : State := ⟨1, [1, 2], 1, [4], 0, [], [⟨4⟩]⟩

/-- An honestly generated KeyGen1 message of party 2 under H0: secret 5,
proof nonce 3, so the commitment is the point 5 and the proof verifies. -/
def m0kg : Message := NewKeyGen1 2 ⟨3⟩ 3 [⟨5⟩]

/-- A Sign1 message the round can process without hitting a runtime panic:
it either comes from self or from a sender present in the signer map while
carrying a Sign1 payload. -/
def goodMsg (st : SignerState) (m : Message) : Prop :=
  m.From = st.SelfID
    ∨ ((mapLookup st.Signers m.From).isSome = true ∧ m.Sign1.isSome = true)

instance (st : SignerState) (m : Message) : Decidable (goodMsg st m) := by
  unfold goodMsg
  infer_instance

/-- The signing state of party 1 among signers 1, 2 and 3, used to evaluate
the permutation invariance on a two-message batch. -/
def stPermW : SignerState :=
  ⟨1, [1, 2, 3], [], [(1, NewSigner), (2, NewSigner), (3, NewSigner)],
    ⟨5⟩, 0, 1, 1, 0, ⟨0⟩⟩

/-!  Helper lemmas about the association-list model of Go maps.  -/

theorem mapLookup_mapUpdate {α : Type} (m : List (Nat × α)) (id k : Nat) (f : α → α) :
    mapLookup (mapUpdate m id f) k
      = if k = id then (mapLookup m k).map f else mapLookup m k := by
  induction m with
  | nil => simp [mapLookup, mapUpdate]
  | cons hd tl ih =>
    by_cases hai : hd.1 = id
    · by_cases hak : hd.1 = k
      · have hki : k = id := by rw [← hak, hai]
        simp [mapLookup, mapUpdate, hai, hak, hki]
      · have hki : k ≠ id := fun h => hak (by rw [hai, h])
        have hik : id ≠ k := fun h => hki h.symm
        simp [mapLookup, mapUpdate, hai, hak, hki, hik, ih]
    · by_cases hak : hd.1 = k
      · have hki : k ≠ id := fun h => hai (by rw [hak, h])
        simp [mapLookup, mapUpdate, hai, hak, hki]
      · simp [mapLookup, mapUpdate, hai, hak, ih]

theorem mapLookup_mapUpdate_isSome {α : Type} (m : List (Nat × α)) (id k : Nat)
    (f : α → α) :
    (mapLookup (mapUpdate m id f) k).isSome = (mapLookup m k).isSome := by
  rw [mapLookup_mapUpdate]
  split <;> simp

theorem mapUpdate_comm {α : Type} (m : List (Nat × α)) (k1 k2 : Nat)
    (f1 f2 : α → α) (h : k1 ≠ k2) :
    mapUpdate (mapUpdate m k1 f1) k2 f2 = mapUpdate (mapUpdate m k2 f2) k1 f1 := by
  induction m with
  | nil => rfl
  | cons hd tl ih =>
    have hne : k2 ≠ k1 := fun hh => h hh.symm
    by_cases h1 : hd.1 = k1
    · have h2 : hd.1 ≠ k2 := by rw [h1]; exact h
      simp [mapUpdate, h1, h2, ih, h, hne]
    · by_cases h2 : hd.1 = k2
      · simp [mapUpdate, h1, h2, ih, h, hne]
      · simp [mapUpdate, h1, h2, ih]

/-!  C1: the signing initialization and signer sets smaller than T plus one.  -/

/-- C1 counterexample.  The public bundle has threshold T equal to 1, so a
valid signer set needs at least two members; the signer set here is the
single party 1, which is a member of the share owners and a subset of the
party list.  The claim says SignInit must fail with a Precondition error; the
code returns a first message and a state. -/
theorem signInit_small_signer_set_succeeds :
    (SignInit [1] ⟨1, 2⟩ ⟨[1, 2], 1, [(1, ⟨3⟩), (2, ⟨4⟩)], ⟨5⟩⟩ [] 1 1).isOk = true := by
  decide

/-- C1 amended.  SignInit never reads the threshold: its outcome is identical
for any two values of the Threshold field of the public bundle, so no
signer-set-size precondition involving T is ever enforced; the only checks
are membership of the secret-share owner, the subset relation, the non-zero
IDs, share presence and Lagrange computability. -/
theorem setupSigners_ignores_threshold (pids : List Nat) (t1 t2 : Nat)
    (shl : List (Nat × Element)) (gk : Element) (all : List Nat) (ids : List Nat) :
    setupSigners ⟨pids, t1, shl, gk⟩ all ids = setupSigners ⟨pids, t2, shl, gk⟩ all ids := by
  induction ids with
  | nil => rfl
  | cons id rest ih => simp only [setupSigners, ih]

theorem signInit_ignores_threshold (ids : List Nat) (sec : SecretShare)
    (pids : List Nat) (t1 t2 : Nat) (shl : List (Nat × Element)) (gk : Element)
    (m : List Nat) (d e : Scalar) :
    SignInit ids sec ⟨pids, t1, shl, gk⟩ m d e
      = SignInit ids sec ⟨pids, t2, shl, gk⟩ m d e := by
  unfold SignInit
  rw [setupSigners_ignores_threshold pids t1 t2 shl gk ids ids]

/-!  C4: the keygen initialization and its claimed precondition checks.  -/

/-- C4 counterexample.  Round0 with N equal to 2, T equal to 5 and self ID 7
violates every claimed precondition (T at least N and self ID above N), yet
it returns a first message and a state instead of a Precondition error. -/
theorem round0_invalid_parameters_succeed :
    (Round0 H0 7 2 5 2 (fun _ => 3) 3).isOk = true := by decide

/-- C4 amended.  Round0 performs no precondition validation at all: for every
self ID whose scalar image is non-zero it returns a first message and a state
regardless of N and T (including T at least N, T equal 0 and self ID above
N); for self ID 0 it does not return a Precondition error either, but hits
the polynomial evaluation panic. -/
theorem round0_no_precondition_check (H : HashModel) (selfID n t : Nat)
    (secret : Scalar) (rand : Nat → Scalar) (k : Scalar)
    (h : idScalar selfID ≠ 0) :
    (Round0 H selfID n t secret rand k).isOk = true := by
  simp only [Round0, KPolynomial.Evaluate, if_neg h]
  rfl

/-- C4 witness: the amended theorem applied at self ID 7, N 2, T 5. -/
theorem round0_no_precondition_check_witness :
    idScalar 7 ≠ 0 ∧ (Round0 H0 7 2 5 2 (fun _ => 3) 3).isOk = true :=
  ⟨by decide, round0_no_precondition_check H0 7 2 5 2 (fun _ => 3) 3 (by decide)⟩

/-!  C9: the JSON round trip of the scalar state fields.  -/

/-- C9.  The scalar codec used by the state persistence does not round-trip:
writing the scalar 1 with Bytes() and reading it back with
SetBytesWithClamping yields 2 to the power 254 reduced modulo the group
order, not 1, because clamping clears the low three bits and forces bit 254.
Hence deserialize of serialize differs from the original state on the scalar
fields SecretKeyShare, E, D and C (and Secret of the keygen state). -/
theorem stateScalarRoundTrip_not_identity :
    stateScalarRoundTrip 1 ≠ 1 ∧ stateScalarRoundTrip 1 = ((2 ^ 254 : Nat) : Scalar) := by
  constructor
  · decide
  · decide

/-!  C10: SignRound1 on a message from an unknown sender.  -/

/-- C10.  A Sign1 message whose sender is not a member of the signer map does
not produce a structured Precondition error: the source dereferences the nil
map entry and panics.  Here the state has signers 1 and 2 and the message
comes from the unknown sender 3 with non-identity commitments; the evaluation
ends in the runtime panic, not in a Precondition error. -/
theorem signRound1_unknown_sender_panics :
    SignRound1 H0
      ⟨1, [1, 2], [], [(1, NewSigner), (2, NewSigner)], ⟨5⟩, 0, 1, 1, 0, ⟨0⟩⟩
      [NewSign1 3 ⟨1⟩ ⟨1⟩]
      = .error SignError.nilDereference := by decide

/-!  C5: the partial signature check of SignRound2.  -/

/-- C5.  A Sign2 message carrying the partial signature z from a known
cosigner j other than self is accepted, with z stored in the signer record,
exactly when z times B plus c times the negation of the stored public share
of j equals the stored commitment share Ri of j; and when the equation fails,
SignRound2 on that batch returns the invalid-partial error and no
signature. -/
theorem signRound2_partial_check (H : HashModel) (st : SignerState)
    (msg : Message) (j : Nat) (z : Scalar) (p : Signer)
    (hfrom : msg.From = j) (hj : j ≠ st.SelfID)
    (hp : mapLookup st.Signers j = some p)
    (hz : msg.Sign2 = some ⟨z⟩) :
    processSign2 st msg
      = (if (Element.scalarBaseMult z).add (Element.scalarMult st.C p.Public.negate) = p.Ri
         then .ok { st with
            Signers := mapUpdate st.Signers j (fun q => { q with Zi := z }) }
         else .error SignError.invalidShare)
    ∧ ((Element.scalarBaseMult z).add (Element.scalarMult st.C p.Public.negate) ≠ p.Ri →
        SignRound2 H st [msg] = .error SignError.invalidShare) := by
  have hstep : processSign2 st msg
      = (if (Element.scalarBaseMult z).add (Element.scalarMult st.C p.Public.negate) = p.Ri
         then .ok { st with
            Signers := mapUpdate st.Signers j (fun q => { q with Zi := z }) }
         else .error SignError.invalidShare) := by
    rw [processSign2, hfrom, if_neg hj, hp, hz]
  refine ⟨hstep, fun hne => ?_⟩
  have hb : processSign2Batch st [msg] = .error SignError.invalidShare := by
    simp only [processSign2Batch, hstep, if_neg hne]
  rw [SignRound2, hb]

/-- C5 witness: the check applied to the partial signature 10 from party 2,
which satisfies 10 minus 2 times 3 equals 4 and is therefore accepted. -/
theorem signRound2_partial_check_witness :
    processSign2 st5 (NewSign2 2 10)
      = (if (Element.scalarBaseMult 10).add
            (Element.scalarMult st5.C ({ NewSigner with Public := ⟨3⟩, Ri := ⟨4⟩ } :
              Signer).Public.negate)
          = ({ NewSigner with Public := ⟨3⟩, Ri := ⟨4⟩ } : Signer).Ri
         then .ok { st5 with
            Signers := mapUpdate st5.Signers 2 (fun q => { q with Zi := 10 }) }
         else .error SignError.invalidShare)
    ∧ ((Element.scalarBaseMult 10).add
          (Element.scalarMult st5.C ({ NewSigner with Public := ⟨3⟩, Ri := ⟨4⟩ } :
            Signer).Public.negate)
        ≠ ({ NewSigner with Public := ⟨3⟩, Ri := ⟨4⟩ } : Signer).Ri →
        SignRound2 H0 st5 [NewSign2 2 10] = .error SignError.invalidShare) :=
  signRound2_partial_check H0 st5 (NewSign2 2 10) 2 10
    { NewSigner with Public := ⟨3⟩, Ri := ⟨4⟩ } rfl (by decide) (by decide) rfl

/-!  C6: the verifiable secret sharing check of the DKG Round2.  -/

/-- C6.  A KeyGen2 share sigma from a party j other than self is accepted,
with sigma added into the secret accumulator that ends up in the returned
secret share, exactly when sigma times B equals the stored commitment
polynomial of j evaluated at the own ID; on mismatch Round2 fails with the
VSS failure, and when no commitment for j is stored Round2 fails as well. -/
theorem round2_vss_check (st : State) (j dest : Nat) (sigma : Scalar)
    (hj : j ≠ st.SelfID) :
    (∀ F, mapLookup st.Commitments j = some F →
      Round2 st [NewKeyGen2 j dest sigma]
        = (if Element.scalarBaseMult sigma = Exponent.Evaluate F (idScalar st.SelfID)
           then .ok (buildPublic st, ⟨st.SelfID, st.Secret + sigma⟩)
           else .error KeygenError.vssFailure))
    ∧ (mapLookup st.Commitments j = none →
        Round2 st [NewKeyGen2 j dest sigma] = .error KeygenError.missingCommitment) := by
  constructor
  · intro F hF
    have hstep : processKG2 st (NewKeyGen2 j dest sigma)
        = (if Element.scalarBaseMult sigma = Exponent.Evaluate F (idScalar st.SelfID)
           then Except.ok { st with Secret := st.Secret + sigma }
           else Except.error KeygenError.vssFailure) := by
      rw [processKG2]
      simp only [NewKeyGen2, if_neg hj, hF]
      rfl
    by_cases hc : Element.scalarBaseMult sigma = Exponent.Evaluate F (idScalar st.SelfID)
    · have hb : processKG2Batch st [NewKeyGen2 j dest sigma]
          = Except.ok { st with Secret := st.Secret + sigma } := by
        simp only [processKG2Batch, hstep, if_pos hc]
      rw [if_pos hc, Round2, hb]
      simp [buildPublic]
    · have hb : processKG2Batch st [NewKeyGen2 j dest sigma]
          = Except.error KeygenError.vssFailure := by
        simp only [processKG2Batch, hstep, if_neg hc]
      rw [if_neg hc, Round2, hb]
      rfl
  · intro hF
    have hstep : processKG2 st (NewKeyGen2 j dest sigma)
        = Except.error KeygenError.missingCommitment := by
      rw [processKG2]
      simp only [NewKeyGen2, if_neg hj, hF]
      rfl
    have hb : processKG2Batch st [NewKeyGen2 j dest sigma]
        = Except.error KeygenError.missingCommitment := by
      simp only [processKG2Batch, hstep]
    rw [Round2, hb]
    rfl

/-- The Sign2 processing loop only rewrites the Signers map: the aggregate R,
the group key, the message and the challenge of the state are untouched. -/
theorem processSign2_preserves (st : SignerState) (m : Message)
    (st2 : SignerState) (h : processSign2 st m = .ok st2) :
    st2.R = st.R ∧ st2.GroupKey = st.GroupKey ∧ st2.Message = st.Message
      ∧ st2.C = st.C := by
  rw [processSign2] at h
  split at h
  · cases h
    exact ⟨rfl, rfl, rfl, rfl⟩
  · split at h
    · cases h
    · split at h
      · cases h
      · dsimp only at h
        split at h
        · cases h
          exact ⟨rfl, rfl, rfl, rfl⟩
        · cases h

/-- The batch version of the preservation property of the Sign2 loop. -/
theorem processSign2Batch_preserves (msgs : List Message) (st st2 : SignerState)
    (h : processSign2Batch st msgs = .ok st2) :
    st2.R = st.R ∧ st2.GroupKey = st.GroupKey ∧ st2.Message = st.Message
      ∧ st2.C = st.C := by
  induction msgs generalizing st with
  | nil =>
    cases h
    exact ⟨rfl, rfl, rfl, rfl⟩
  | cons m rest ih =>
    rw [processSign2Batch] at h
    cases hm : processSign2 st m with
    | error e => rw [hm] at h; cases h
    | ok stm =>
      rw [hm] at h
      obtain ⟨h1, h2, h3, h4⟩ := ih stm h
      obtain ⟨g1, g2, g3, g4⟩ := processSign2_preserves st m stm hm
      exact ⟨h1.trans g1, h2.trans g2, h3.trans g3, h4.trans g4⟩

/-- C2.  Whenever SignRound2 returns a signature without error, the signature
satisfies the Schnorr verification equation: S times B equals R plus c times
A, where A is the group key, the returned R is the aggregate stored in the
state and c is the challenge hash of R, A and the message; S is the sum of
the partial signatures over all signer records, the own one included; and if
the stored challenge field C equals that hash (as SignRound1 guarantees), the
equation holds with the stored challenge. -/
theorem signRound2_ok_signature_verifies (H : HashModel) (st : SignerState)
    (msgs : List Message) (sig : Signature) (st2 : SignerState)
    (h : SignRound2 H st msgs = .ok (sig, st2)) :
    Element.scalarBaseMult sig.S
      = sig.R.add (Element.scalarMult (H.challenge sig.R st.GroupKey st.Message) st.GroupKey)
    ∧ sig.R = st.R
    ∧ sig.S = sumZi st2.Signers
    ∧ (st.C = H.challenge sig.R st.GroupKey st.Message →
        Element.scalarBaseMult sig.S = sig.R.add (Element.scalarMult st.C st.GroupKey)) := by
  rw [SignRound2] at h
  cases hb : processSign2Batch st msgs with
  | error e => rw [hb] at h; cases h
  | ok st3 =>
    rw [hb] at h
    obtain ⟨hR, hGK, hM, _⟩ := processSign2Batch_preserves msgs st st3 hb
    dsimp only at h
    split at h
    · cases h
      rename_i hv
      rw [PublicKeyVerify, decide_eq_true_eq] at hv
      rw [hGK, hM] at hv
      exact ⟨hv, hR, rfl, fun hc => by rw [hc]; exact hv⟩
    · cases h

/-- C2 witness: the theorem applied to a concrete run of SignRound2 on the
empty batch that returns a signature. -/
theorem signRound2_ok_signature_verifies_witness :
    Element.scalarBaseMult (5 : Scalar)
      = (Element.mk 5).add (Element.scalarMult (H0.challenge ⟨5⟩ st2ok.GroupKey st2ok.Message) st2ok.GroupKey)
    ∧ (Element.mk 5) = st2ok.R
    ∧ (5 : Scalar) = sumZi st2ok.Signers
    ∧ (st2ok.C = H0.challenge ⟨5⟩ st2ok.GroupKey st2ok.Message →
        Element.scalarBaseMult (5 : Scalar)
          = (Element.mk 5).add (Element.scalarMult st2ok.C st2ok.GroupKey)) :=
  signRound2_ok_signature_verifies H0 st2ok [] ⟨⟨5⟩, 5⟩ st2ok (by decide)

/-- A Go copy into the buffer at the header offset replaces exactly the bytes
that sat there when the incoming slice has the same length: the buffer always
extends past the written region because it carries the message hash and the
commitment list behind the header. -/
theorem writeAt_replaces (src old rest : List Nat)
    (hlen : old.length = src.length) :
    writeAt hashDomainSeparation.length src (hashDomainSeparation ++ old ++ rest)
      = hashDomainSeparation ++ src ++ rest := by
  have h1 : (hashDomainSeparation ++ old ++ rest).take hashDomainSeparation.length
      = hashDomainSeparation := by
    rw [List.append_assoc]
    exact List.take_left _ _
  have h2 : src.take ((hashDomainSeparation ++ old ++ rest).length
        - hashDomainSeparation.length) = src := by
    apply List.take_of_length_le
    simp only [List.length_append]
    omega
  have hlen2 : hashDomainSeparation.length + src.length
      = (hashDomainSeparation ++ old).length := by
    simp [List.length_append, hlen]
  have h3 : (hashDomainSeparation ++ old ++ rest).drop
      (hashDomainSeparation.length + src.length) = rest := by
    rw [hlen2]
    exact List.drop_left _ _
  rw [writeAt, h1, h2, h3]

/-- The binding-factor loop overwrites the two header ID bytes before every
digest, so the signer records it produces do not depend on what those two
bytes held when the loop started. -/
theorem rhoLoop_snd_independent (H : HashModel) (ids : List Nat)
    (sg : List (Nat × Signer)) (old1 old2 rest : List Nat)
    (h1 : old1.length = 2) (h2 : old2.length = 2) :
    (rhoLoop H ids (hashDomainSeparation ++ old1 ++ rest) sg).map Prod.snd
      = (rhoLoop H ids (hashDomainSeparation ++ old2 ++ rest) sg).map Prod.snd := by
  cases ids with
  | nil => rfl
  | cons id tl =>
    have e1 : writeAt hashDomainSeparation.length (idBytes id)
        (hashDomainSeparation ++ old1 ++ rest) = hashDomainSeparation ++ idBytes id ++ rest :=
      writeAt_replaces (idBytes id) old1 rest h1
    have e2 : writeAt hashDomainSeparation.length (idBytes id)
        (hashDomainSeparation ++ old2 ++ rest) = hashDomainSeparation ++ idBytes id ++ rest :=
      writeAt_replaces (idBytes id) old2 rest h2
    simp only [rhoLoop, e1, e2]

/-- C7.  The binding factors are independent of the computing party: two
states that agree on the signer list, the message and the stored signer
records (the nonce commitments in particular) produce identical binding
factors from computeRhos, whatever their own IDs are.  The own ID only
occupies the two header bytes of the hash buffer that the loop overwrites
with the target signer ID before every digest. -/
theorem computeRhos_independent_of_selfID (H : HashModel) (st1 st2 : SignerState)
    (hids : st1.SignerIDs = st2.SignerIDs) (hmsg : st1.Message = st2.Message)
    (hsg : st1.Signers = st2.Signers) :
    (computeRhos H st1).map SignerState.Signers
      = (computeRhos H st2).map SignerState.Signers := by
  rw [computeRhos, computeRhos, hids, hmsg, hsg]
  dsimp only
  cases hc : collectB H st2.Signers st2.SignerIDs [] with
  | error e => rfl
  | ok bbuf =>
    dsimp only
    rw [List.append_assoc (hashDomainSeparation ++ idBytes st1.SelfID)
        (H.sha512 st2.Message) bbuf,
      List.append_assoc (hashDomainSeparation ++ idBytes st2.SelfID)
        (H.sha512 st2.Message) bbuf]
    have hind := rhoLoop_snd_independent H st2.SignerIDs st2.Signers
      (idBytes st1.SelfID) (idBytes st2.SelfID) (H.sha512 st2.Message ++ bbuf) rfl rfl
    cases hr1 : rhoLoop H st2.SignerIDs
        (hashDomainSeparation ++ idBytes st1.SelfID ++ (H.sha512 st2.Message ++ bbuf))
        st2.Signers with
    | error e1 =>
      cases hr2 : rhoLoop H st2.SignerIDs
          (hashDomainSeparation ++ idBytes st2.SelfID ++ (H.sha512 st2.Message ++ bbuf))
          st2.Signers with
      | error e2 =>
        rw [hr1, hr2] at hind
        simp only [Except.map] at hind
        cases hind
        rfl
      | ok out2 =>
        rw [hr1, hr2] at hind
        simp [Except.map] at hind
    | ok out1 =>
      cases hr2 : rhoLoop H st2.SignerIDs
          (hashDomainSeparation ++ idBytes st2.SelfID ++ (H.sha512 st2.Message ++ bbuf))
          st2.Signers with
      | error e2 =>
        rw [hr1, hr2] at hind
        simp [Except.map] at hind
      | ok out2 =>
        rw [hr1, hr2] at hind
        simp only [Except.map, Except.ok.injEq] at hind
        dsimp only [Except.map]
        rw [hind]

/-- C7 witness: the theorem applied to the two concrete states stA and stB
that differ only in the own ID. -/
theorem computeRhos_independent_of_selfID_witness :
    (computeRhos H0 stA).map SignerState.Signers
      = (computeRhos H0 stB).map SignerState.Signers :=
  computeRhos_independent_of_selfID H0 stA stB rfl rfl rfl

/-!  C3: duplicate sender IDs in the DKG Round1 input batch.  -/

/-- C3 counterexample.  A Round1 batch that contains the same KeyGen1 message
of party 2 twice is not rejected: the round returns its messages and state,
and the commitment of party 2 (point 5) has been accumulated twice into the
commitment sum, which ends at 4 plus 5 plus 5, the point 14. -/
theorem round1_duplicate_batch_accepted :
    Round1 H0 st0kg [m0kg, m0kg]
      = .ok ([NewKeyGen2 1 2 4], ⟨1, [1, 2], 1, [4], 4, [(2, [⟨5⟩])], [⟨14⟩]⟩) := by
  decide

/-- C3 amended.  Round1 performs no duplicate-sender check: a batch holding
the same valid KeyGen1 message twice is processed exactly like the batch
holding it once applied to the state that has already absorbed one copy, so
the duplicated commitment is stored again and added a second time into the
commitment sum. -/
theorem round1_duplicate_not_rejected (H : HashModel) (st : State) (j : Nat)
    (M : Element) (s : Scalar) (F : List Element)
    (hj : j ≠ st.SelfID)
    (hv : SchnorrVerify H j (Exponent.Constant F) zeroCtx ⟨M, s⟩ = true) :
    Round1 H st [NewKeyGen1 j M s F, NewKeyGen1 j M s F]
      = Round1 H { st with
          Commitments := mapInsert st.Commitments j F
          CommitmentsSum := Exponent.AddExp st.CommitmentsSum F }
          [NewKeyGen1 j M s F] := by
  have hstep : processKG1 H st (NewKeyGen1 j M s F)
      = .ok { st with
          Commitments := mapInsert st.Commitments j F
          CommitmentsSum := Exponent.AddExp st.CommitmentsSum F } := by
    rw [processKG1]
    simp [NewKeyGen1, hj, hv]
  have hbatch : processKG1Batch H st [NewKeyGen1 j M s F, NewKeyGen1 j M s F]
      = processKG1Batch H { st with
          Commitments := mapInsert st.Commitments j F
          CommitmentsSum := Exponent.AddExp st.CommitmentsSum F }
          [NewKeyGen1 j M s F] := by
    simp only [processKG1Batch, hstep]
  rw [Round1, Round1, hbatch]

/-- C3 witness: the amended theorem applied to the duplicate message of party
2 with commitment point 5 and honestly generated proof under H0. -/
theorem round1_duplicate_not_rejected_witness :
    Round1 H0 st0kg [m0kg, m0kg]
      = Round1 H0 { st0kg with
          Commitments := mapInsert st0kg.Commitments 2 [⟨5⟩]
          CommitmentsSum := Exponent.AddExp st0kg.CommitmentsSum [⟨5⟩] } [m0kg] :=
  round1_duplicate_not_rejected H0 st0kg 2 ⟨3⟩ 3 [⟨5⟩] (by decide) (by decide)

/-!  C8: order independence of the SignRound1 input batch.  -/

/-- Messages from self are skipped by the Sign1 processing loop. -/
theorem processSign1_self (st : SignerState) (m : Message)
    (h : m.From = st.SelfID) : processSign1 st m = .ok st := by
  rw [processSign1, if_pos h]

/-- A successful step of the Sign1 processing loop keeps the own ID and the
key set of the signer map. -/
theorem processSign1_ok_fields (st : SignerState) (m : Message)
    (st2 : SignerState) (h : processSign1 st m = .ok st2) :
    st2.SelfID = st.SelfID
      ∧ ∀ k, (mapLookup st2.Signers k).isSome = (mapLookup st.Signers k).isSome := by
  rw [processSign1] at h
  split at h
  · cases h
    exact ⟨rfl, fun k => rfl⟩
  · split at h
    · cases h
    · split at h
      · cases h
      · split at h
        · cases h
        · dsimp only at h
          cases h
          exact ⟨rfl, fun k => mapLookup_mapUpdate_isSome _ _ _ _⟩

/-- The behavior of one step of the Sign1 processing loop on a non-self
message from a known sender with a payload: reject identity commitments,
otherwise store the two commitments for that sender. -/
theorem processSign1_char (st : SignerState) (m : Message) (s1 : Sign1Payload)
    (hself : ¬ m.From = st.SelfID) (hp : m.Sign1 = some s1)
    (hk : (mapLookup st.Signers m.From).isSome = true) :
    processSign1 st m
      = (if s1.Di = Element.identity ∨ s1.Ei = Element.identity
         then .error SignError.identityCommitment
         else .ok { st with Signers := mapUpdate st.Signers m.From (fun q => { q with Di := s1.Di, Ei := s1.Ei }) }) := by
  obtain ⟨v, hv⟩ := Option.isSome_iff_exists.mp hk
  rw [processSign1, if_neg hself, hp, hv]

/-- Two steps of the Sign1 processing loop on messages from distinct senders
commute when neither step can panic. -/
theorem processSign1_comm (st : SignerState) (a b : Message)
    (hab : a.From ≠ b.From) (ha : goodMsg st a) (hb : goodMsg st b) :
    (match processSign1 st a with
     | .error e => Except.error e
     | .ok s => processSign1 s b)
    = (match processSign1 st b with
     | .error e => Except.error e
     | .ok s => processSign1 s a) := by
  by_cases haself : a.From = st.SelfID
  · rw [processSign1_self st a haself]
    dsimp only
    cases hbb : processSign1 st b with
    | error e => rfl
    | ok s =>
      dsimp only
      obtain ⟨hself, _⟩ := processSign1_ok_fields st b s hbb
      rw [processSign1_self s a (by rw [hself]; exact haself)]
  · by_cases hbself : b.From = st.SelfID
    · rw [processSign1_self st b hbself]
      dsimp only
      cases haa : processSign1 st a with
      | error e => rfl
      | ok s =>
        dsimp only
        obtain ⟨hself, _⟩ := processSign1_ok_fields st a s haa
        rw [processSign1_self s b (by rw [hself]; exact hbself)]
    · obtain ⟨hak, hap⟩ := ha.resolve_left haself
      obtain ⟨hbk, hbp⟩ := hb.resolve_left hbself
      obtain ⟨s1a, hs1a⟩ := Option.isSome_iff_exists.mp hap
      obtain ⟨s1b, hs1b⟩ := Option.isSome_iff_exists.mp hbp
      rw [processSign1_char st a s1a haself hs1a hak,
        processSign1_char st b s1b hbself hs1b hbk]
      by_cases hia : s1a.Di = Element.identity ∨ s1a.Ei = Element.identity
      · rw [if_pos hia]
        by_cases hib : s1b.Di = Element.identity ∨ s1b.Ei = Element.identity
        · rw [if_pos hib]
        · rw [if_neg hib]
          dsimp only
          rw [processSign1_char
            { st with Signers := mapUpdate st.Signers b.From (fun q => { q with Di := s1b.Di, Ei := s1b.Ei }) }
            a s1a haself hs1a
            ((mapLookup_mapUpdate_isSome st.Signers b.From a.From
              (fun q => { q with Di := s1b.Di, Ei := s1b.Ei })).trans hak)]
          rw [if_pos hia]
      · rw [if_neg hia]
        by_cases hib : s1b.Di = Element.identity ∨ s1b.Ei = Element.identity
        · rw [if_pos hib]
          dsimp only
          rw [processSign1_char
            { st with Signers := mapUpdate st.Signers a.From (fun q => { q with Di := s1a.Di, Ei := s1a.Ei }) }
            b s1b hbself hs1b
            ((mapLookup_mapUpdate_isSome st.Signers a.From b.From
              (fun q => { q with Di := s1a.Di, Ei := s1a.Ei })).trans hbk)]
          rw [if_pos hib]
        · rw [if_neg hib]
          dsimp only
          rw [processSign1_char
            { st with Signers := mapUpdate st.Signers a.From (fun q => { q with Di := s1a.Di, Ei := s1a.Ei }) }
            b s1b hbself hs1b
            ((mapLookup_mapUpdate_isSome st.Signers a.From b.From
              (fun q => { q with Di := s1a.Di, Ei := s1a.Ei })).trans hbk)]
          rw [processSign1_char
            { st with Signers := mapUpdate st.Signers b.From (fun q => { q with Di := s1b.Di, Ei := s1b.Ei }) }
            a s1a haself hs1a
            ((mapLookup_mapUpdate_isSome st.Signers b.From a.From
              (fun q => { q with Di := s1b.Di, Ei := s1b.Ei })).trans hak)]
          rw [if_neg hib, if_neg hia]
          dsimp only
          rw [mapUpdate_comm st.Signers a.From b.From
            (fun q => { q with Di := s1a.Di, Ei := s1a.Ei })
            (fun q => { q with Di := s1b.Di, Ei := s1b.Ei }) hab]

/-- The Sign1 processing loop gives the same result on any permutation of a
batch whose senders are pairwise distinct and all processable. -/
theorem processSign1Batch_perm (msgs1 msgs2 : List Message)
    (hp : msgs1.Perm msgs2) :
    ∀ st : SignerState, (msgs1.map Message.From).Nodup →
      (∀ m ∈ msgs1, goodMsg st m) →
      processSign1Batch st msgs1 = processSign1Batch st msgs2 := by
  induction hp with
  | nil => intro st _ _; rfl
  | cons x l12 ih =>
    rename_i l1 l2
    intro st hnd hg
    have hnd2 : (List.map Message.From l1).Nodup := by
      simp only [List.map_cons, List.nodup_cons] at hnd
      exact hnd.2
    simp only [processSign1Batch]
    cases hx : processSign1 st x with
    | error e => rfl
    | ok s =>
      obtain ⟨hself, hsome⟩ := processSign1_ok_fields st x s hx
      dsimp only
      apply ih s hnd2
      intro m hm
      rcases hg m (List.mem_cons_of_mem x hm) with h | ⟨h1, h2⟩
      · exact Or.inl (by rw [hself]; exact h)
      · exact Or.inr ⟨(hsome m.From).trans h1, h2⟩
  | swap x y l =>
    intro st hnd hg
    have expand : ∀ (a b : Message) (s : SignerState),
        processSign1Batch s (a :: b :: l)
          = (match (match processSign1 s a with
                    | .error e => Except.error e
                    | .ok u => processSign1 u b) with
             | .error e => Except.error e
             | .ok u2 => processSign1Batch u2 l) := by
      intro a b s
      cases ha : processSign1 s a with
      | error e => simp only [processSign1Batch, ha]
      | ok u =>
        cases hb2 : processSign1 u b with
        | error e => simp only [processSign1Batch, ha, hb2]
        | ok u2 => simp only [processSign1Batch, ha, hb2]
    have hyx : y.From ≠ x.From := by
      simp only [List.map_cons, List.nodup_cons, List.mem_cons, not_or] at hnd
      exact hnd.1.1
    rw [expand y x st, expand x y st,
      processSign1_comm st y x hyx (hg y (by simp)) (hg x (by simp))]
  | trans h12 h23 ih1 ih2 =>
    intro st hnd hg
    refine (ih1 st hnd hg).trans (ih2 st ?_ ?_)
    · exact ((h12.map Message.From).nodup_iff).mp hnd
    · intro m hm
      exact hg m (h12.mem_iff.mpr hm)

/-- C8 counterexample.  When the batch holds two different Sign1 messages
from the same sender 2, the delivery order decides which commitments stay in
the state, so SignRound1 is not permutation invariant on such batches: the
two orders both succeed but store different commitments for sender 2. -/
theorem signRound1_duplicate_sender_order_dependent :
    SignRound1 H0 ⟨1, [1, 2], [], [(1, NewSigner), (2, NewSigner)], ⟨5⟩, 0, 1, 1, 0, ⟨0⟩⟩
        [NewSign1 2 ⟨1⟩ ⟨1⟩, NewSign1 2 ⟨2⟩ ⟨2⟩]
      ≠ SignRound1 H0 ⟨1, [1, 2], [], [(1, NewSigner), (2, NewSigner)], ⟨5⟩, 0, 1, 1, 0, ⟨0⟩⟩
        [NewSign1 2 ⟨2⟩ ⟨2⟩, NewSign1 2 ⟨1⟩ ⟨1⟩] := by
  decide

/-- C8 amended.  For batches in which every sender appears at most once and
every message either comes from self or from a known signer with a Sign1
payload (so no step panics), SignRound1 returns the same emitted message and
the same state, or the same error, on every permutation of the batch: the
outcome depends only on the set of messages received. -/
theorem signRound1_permutation_invariant (H : HashModel) (st : SignerState)
    (msgs1 msgs2 : List Message) (hp : msgs1.Perm msgs2)
    (hnd : (msgs1.map Message.From).Nodup)
    (hg : ∀ m ∈ msgs1, goodMsg st m) :
    SignRound1 H st msgs1 = SignRound1 H st msgs2 := by
  rw [SignRound1, SignRound1, processSign1Batch_perm msgs1 msgs2 hp st hnd hg]

/-- C8 witness: the amended theorem applied to the two orders of a batch of
Sign1 messages from the distinct senders 2 and 3. -/
theorem signRound1_permutation_invariant_witness :
    SignRound1 H0 stPermW [NewSign1 2 ⟨1⟩ ⟨1⟩, NewSign1 3 ⟨2⟩ ⟨2⟩]
      = SignRound1 H0 stPermW [NewSign1 3 ⟨2⟩ ⟨2⟩, NewSign1 2 ⟨1⟩ ⟨1⟩] :=
  signRound1_permutation_invariant H0 stPermW
    [NewSign1 2 ⟨1⟩ ⟨1⟩, NewSign1 3 ⟨2⟩ ⟨2⟩]
    [NewSign1 3 ⟨2⟩ ⟨2⟩, NewSign1 2 ⟨1⟩ ⟨1⟩]
    (List.Perm.swap (NewSign1 3 ⟨2⟩ ⟨2⟩) (NewSign1 2 ⟨1⟩ ⟨1⟩) [])
    (by decide) (by decide)

/-- C6 witness: the check applied to the share 3 from party 2, whose image
under scalar-base multiplication matches the stored commitment evaluated at
party 1, so the share is accepted and accumulated. -/
theorem round2_vss_check_witness :
    (∀ F, mapLookup st6.Commitments 2 = some F →
      Round2 st6 [NewKeyGen2 2 1 3]
        = (if Element.scalarBaseMult 3 = Exponent.Evaluate F (idScalar st6.SelfID)
           then .ok (buildPublic st6, ⟨st6.SelfID, st6.Secret + 3⟩)
           else .error KeygenError.vssFailure))
    ∧ (mapLookup st6.Commitments 2 = none →
        Round2 st6 [NewKeyGen2 2 1 3] = .error KeygenError.missingCommitment) :=
  round2_vss_check st6 2 1 3 (by decide)

end Frost
